import Mathlib

/-!
Verification of the restaurant/dish recommendation backend (src/main.py).

The file shallowly embeds the two orchestration jobs of the service —
`process_restaurant_data` (single-restaurant lookup) and
`process_dish_search` (dish search across many restaurants) — together
with the helper logic they use: review normalisation, the two-pass
review/place merge, the keyword-based candidate ranker (including the
word-boundary matching performed by Python's `re.findall` with an
escaped keyword between two word-boundary anchors), and the
per-candidate detailed analysis with its degraded fallback records.

External collaborators (the Apify scraper and the Gemini summarizer) are
modelled as oracles supplied through an environment record: each blocking
call is either a returned value or a raised exception message.  Machine
floats are modelled by rationals (the score arithmetic used here — the
fixed lookup table, halving, and `rating * (1 + kc/10)` — is about which
formula is computed, not float rounding).  Python strings are lists of
characters; `None`-able JSON fields are `Option`s.

A task's observable history is modelled as the list of values of its
`tasks[task_id]` record at each point where the coroutine can yield
control (consecutive plain assignments with no intervening await are
atomic with respect to other coroutines, so `state` and `result` updates
written back to back form one observable step).
-/

namespace FoodRec

/-- Characters of a Python string. -/
abbrev Str := List Char

/-- Shorthand turning a Lean string literal into its character list. -/
def S (s : String) : Str := s.toList

/-- Python str.lower (the data handled here is ASCII, where Char.toLower
agrees with Python's case mapping). -/
def lowerS (s : Str) : Str := s.map Char.toLower

/-- A raw review record as produced by the scraper: `text` may be absent
(outer `none`) or JSON null (inner `none`); `stars` may be absent. -/
structure RawReview where
  text : Option (Option Str)
  stars : Option Int
deriving DecidableEq

/-- A processed review in the dish-search pipeline: text is always a string. -/
structure Review where
  text : Str
  stars : Int
deriving DecidableEq

/-- A processed review in the single-restaurant pipeline.  main.py line 297
uses `review.get("text", "")` with no null check, so a present-but-null
text survives as null; the field therefore stays optional. -/
structure RReview where
  text : Option Str
  stars : Int
deriving DecidableEq

/-- main.py 296-299: the single-restaurant pipeline's review processing.
An absent text defaults to the empty string, a present (possibly null)
value is kept as-is; absent stars default to 0. -/
def processReviewR (r : RawReview) : RReview :=
  { text := r.text.getD (some []), stars := r.stars.getD 0 }

/-- main.py 543-552 (and 567-578): the dish-search pipeline's review
processing.  `review_text = review.get("text", "")` then
`if review_text is None: review_text = ""`; absent stars default to 0. -/
def processReviewD (r : RawReview) : Review :=
  { text := (r.text.getD (some [])).getD [], stars := r.stars.getD 0 }

/-- A dataset item seen by the single-restaurant pipeline: an optional
`reviews` array and an optional place `name` (a null name is modelled as
absent; both are skipped identically by the code). -/
structure RItem where
  reviews : Option (List RawReview)
  name : Option Str
deriving DecidableEq

/-- main.py 289-301: the reviews collected over the dataset iteration
(`reviews.extend(processed_reviews)` for every item carrying a
`reviews` field). -/
def collectReviewsR (items : List RItem) : List RReview :=
  items.foldl
    (fun acc it =>
      match it.reviews with
      | some rs => acc ++ rs.map processReviewR
      | none => acc)
    []

/-- main.py 303-305: the restaurant name after the dataset iteration — the
last item carrying a non-empty name wins, starting from the URL-derived
guess. -/
def finalName (items : List RItem) (init : Str) : Str :=
  items.foldl
    (fun acc it =>
      match it.name with
      | some n => if n.isEmpty then acc else n
      | none => acc)
    init

/-- A dataset item seen by the dish-search pipeline.  Presence of a field in
the Python dict is an `Option`; `text`/`stars` belong to review records,
the rest to place records (nothing stops one item carrying both). -/
structure PItem where
  title : Option Str
  street : Option Str
  city : Option Str
  stateName : Option Str
  totalScore : Option ℚ
  reviewsCount : Option Nat
  url : Option Str
  reviews : Option (List RawReview)
  text : Option (Option Str)
  stars : Option Int
deriving DecidableEq

/-- A restaurant candidate of the dish-search pipeline.  `keyword_count` and
`combined_score` are the keys the ranking step adds to the Python dict;
they are modelled as fields initialised to 0. -/
structure Candidate where
  name : Str
  address : Str
  rating : ℚ
  reviewsCount : Nat
  url : Str
  reviews : List Review
  keyword_count : Nat := 0
  combined_score : ℚ := 0
deriving DecidableEq

/-- main.py 528-555: first pass over the dataset — every item carrying a
title becomes a restaurant; interleaved reviews, limited to the first 10,
are normalised by processReviewD. -/
def buildCandidate (it : PItem) : Option Candidate :=
  match it.title with
  | none => none
  | some t =>
    some
      { name := t
        address := it.street.getD [] ++ S ", " ++ it.city.getD [] ++ S ", "
          ++ it.stateName.getD []
        rating := it.totalScore.getD 0
        reviewsCount := it.reviewsCount.getD 0
        url := it.url.getD []
        reviews := ((it.reviews.getD []).take 10).map processReviewD }

/-- main.py 566-578: the review records the second pass appends to the place
named nm — items carrying both a text field and a title equal to nm, with
null text normalised to the empty string and absent stars to 0. -/
def splitReviews (items : List PItem) (nm : Str) : List Review :=
  items.filterMap fun it =>
    match it.text, it.title with
    | some txt, some t =>
      if t = nm then some { text := txt.getD [], stars := it.stars.getD 0 } else none
    | _, _ => none

/-- main.py 557-578: when the first pass produced a non-empty restaurant
list in which every review list is empty, a second pass over the same
dataset appends each review record to `restaurant_map[title]`.  That map
is keyed by name and keeps the last restaurant sharing a name, so exactly
the last one receives the matched reviews. -/
def mergeSecondPass (cands : List Candidate) (items : List PItem) : List Candidate :=
  if !cands.isEmpty && cands.all (fun r => r.reviews.isEmpty) then
    cands.enum.map fun p =>
      if (cands.drop (p.1 + 1)).all (fun r2 => decide (r2.name ≠ p.2.name)) then
        let r := p.2
        let matched := splitReviews items r.name
        { r with reviews := r.reviews ++ matched }
      else p.2
  else cands

/-- Python re's word character class, restricted to ASCII: letters, digits
and the underscore. -/
def isWordChar (c : Char) : Bool := c.isAlphanum || c == '_'

/-- Word-character-ness of the first character of a suffix; the end of the
string counts as non-word. -/
def headWord : Str → Bool
  | [] => false
  | c :: _ => isWordChar c

/-- Word-character-ness of the last character of a list (false for empty). -/
def wordEnd : Str → Bool
  | [] => false
  | [c] => isWordChar c
  | _ :: rest => wordEnd rest

/-- Whether the regex word-boundary, keyword, word-boundary matches at the
start of the suffix t, prev being the word-ness of the character just
before t.  A boundary holds where word-ness changes; both ends of the
whole string count as non-word. -/
def bMatchHere (kw t : Str) (prev : Bool) : Bool :=
  if kw.isEmpty then prev != headWord t
  else
    kw.isPrefixOf t && (prev != headWord kw) && (wordEnd kw != headWord (t.drop kw.length))

/-- Fuel-bounded body of the findall scan (wwScan below supplies enough
fuel for the whole text, so the 0-fuel arm is never reached): at each
position of the suffix, a match of a nonempty keyword is counted and
consumed (the scan resumes right after it, as re.findall does), the empty
keyword matches emptily at each boundary position, and otherwise the scan
advances one character. -/
def wwScanGo (kw : Str) : Nat → Str → Bool → Nat
  | 0, _, _ => 0
  | _ + 1, [], prev => if bMatchHere kw [] prev then 1 else 0
  | fuel + 1, c :: rest, prev =>
    if kw.isEmpty then
      (if prev != isWordChar c then 1 else 0) + wwScanGo kw fuel rest (isWordChar c)
    else if bMatchHere kw (c :: rest) prev then
      1 + wwScanGo kw fuel ((c :: rest).drop kw.length) (wordEnd kw)
    else
      wwScanGo kw fuel rest (isWordChar c)

/-- Number of matches re.findall finds for word-boundary, keyword,
word-boundary in the suffix t, scanning left to right; prev is the
word-ness of the character just before t (false at the start of the
string). -/
def wwScan (kw : Str) (t : Str) (prev : Bool) : Nat :=
  wwScanGo kw (t.length + 1) t prev

/-- main.py 609-611: the space-joined concatenation of the lowercased texts
of the candidate's reviews whose text is non-empty. -/
def allReviewText (reviews : List Review) : Str :=
  List.intercalate (S " ")
    ((reviews.filter fun r => !r.text.isEmpty).map fun r => lowerS r.text)

/-- main.py 589-601: the keyword list built from the dish — the lowercased
dish, then its plural/singular counterpart (strip a trailing s, else
append one), then, when the dish contains a space, its first word. -/
def dishKeywords (dish : Str) : List Str :=
  let d := lowerS dish
  let ks := [d]
  let ks := ks ++ [if d.getLast? = some 's' then d.dropLast else d ++ [ 's' ]]
  if d.contains ' ' then ks ++ [d.takeWhile fun c => decide (c ≠ ' ')] else ks

/-- main.py 604-616: keyword_count — starting from 0, for each keyword add
the number of whole-word matches found in the joined review text. -/
def keywordCountOf (dish : Str) (reviews : List Review) : Nat :=
  (dishKeywords dish).foldl
    (fun acc kw => acc + wwScan kw (allReviewText reviews) false) 0

/-- Comparator realising Python's stable `sort(key=rating, reverse=True)`. -/
def byRatingDesc (a b : Candidate) : Bool := decide (b.rating ≤ a.rating)

/-- Comparator realising `sort(key=combined_score, reverse=True)`. -/
def byScoreDesc (a b : Candidate) : Bool := decide (b.combined_score ≤ a.combined_score)

/-- main.py 582-628: the candidate filter and ranker — stable sort by rating
descending, keyword counting, combined score, stable sort by combined
score descending, and the first 10 survivors. -/
def rankStep (dish : Str) (cands : List Candidate) : List Candidate :=
  let sorted1 := cands.mergeSort byRatingDesc
  let scored := sorted1.map fun r =>
    let kc := keywordCountOf dish r.reviews
    { r with keyword_count := kc, combined_score := r.rating * (1 + (kc : ℚ) / 10) }
  (scored.mergeSort byScoreDesc).take 10

/-- The JSON object fields the detail analyzer reads from a parsed
summarizer response, at their expected types; an absent field is none. -/
structure Analysis where
  serves_dish : Option Bool := none
  dish_quality : Option Str := none
  dish_description : Option Str := none
  key_points : Option (List Str) := none
  recommendation : Option Str := none
  recommendation_score : Option ℚ := none
deriving DecidableEq

/-- A candidate together with its per-dish analysis and ai_score. -/
structure AnalyzedCandidate where
  name : Str
  address : Str
  rating : ℚ
  reviewsCount : Nat
  url : Str
  reviews : List Review
  analysis : Analysis
  ai_score : ℚ
deriving DecidableEq

/-- Outcome of one per-candidate summarizer call: the call raised with a
message, or it returned text that after code-fence stripping either fails
json.loads (`ok none`) or parses as an object with the given typed fields
(`ok (some a)`). -/
inductive SummOutcome
  | exn (msg : Str)
  | ok (parsed : Option Analysis)

/-- main.py 419-426: `quality_map.get(key, 4.0)`. -/
def qualityMap (q : Str) : ℚ :=
  if q = S "excellent" then 9
  else if q = S "good" then 7
  else if q = S "average" then 5
  else if q = S "poor" then 3
  else if q = S "unknown" then 4
  else 4

/-- main.py 359-484: one unit of the parallel detail analyzer.  Every branch
returns a record, so a unit failure never escapes; lines 412-445 derive
the score from a parsed response, lines 447-465 build the parse-failure
record (score 3.0), lines 466-484 the call-failure record (score 2.0). -/
def analyzeDetailed (r : Candidate) (dish : Str) (o : SummOutcome) : AnalyzedCandidate :=
  match o with
  | .ok (some a) =>
    let s0 := a.recommendation_score.getD 0
    let s1 := if s0 = 0 then qualityMap (a.dish_quality.getD (S "unknown")) else s0
    let s2 := if a.serves_dish.getD false then s1 else s1 * (1 / 2)
    { name := r.name, address := r.address, rating := r.rating
      reviewsCount := r.reviewsCount, url := r.url, reviews := r.reviews
      analysis := a, ai_score := s2 }
  | .ok none =>
    { name := r.name, address := r.address, rating := r.rating
      reviewsCount := r.reviewsCount, url := r.url, reviews := r.reviews
      analysis :=
        { serves_dish := some false
          dish_quality := some (S "unknown")
          dish_description :=
            some (S "We couldn't determine if this restaurant serves " ++ dish ++ S ".")
          key_points := some []
          recommendation :=
            some (S "This restaurant may serve " ++ dish
              ++ S " but we couldn't analyze the quality.")
          recommendation_score := some 3 }
      ai_score := 3 }
  | .exn _ =>
    { name := r.name, address := r.address, rating := r.rating
      reviewsCount := r.reviewsCount, url := r.url, reviews := r.reviews
      analysis :=
        { serves_dish := some false
          dish_quality := some (S "unknown")
          dish_description :=
            some (S "Error analyzing this restaurant for " ++ dish ++ S ".")
          key_points := some []
          recommendation :=
            some (S "This restaurant may serve " ++ dish
              ++ S " but we couldn't analyze the quality.")
          recommendation_score := some 2 }
      ai_score := 2 }

/-- main.py 638-648: fan out one analysis unit per shortlisted candidate and
gather; asyncio.gather returns the unit results in the order the tasks
were created, i.e. shortlist order, one result per candidate. -/
def analyzeAll (dish : Str) (summ : Nat → SummOutcome)
    (shortlist : List Candidate) : List AnalyzedCandidate :=
  shortlist.enum.map fun p => analyzeDetailed p.2 dish (summ p.1)

/-- main.py 650-653: the defensive loop giving ai_score 0.0 when missing or
None; each branch of analyzeDetailed sets ai_score, so under the typed
model the loop leaves every entry unchanged. -/
def ensureScores (l : List AnalyzedCandidate) : List AnalyzedCandidate :=
  l.map fun r => r

/-- Comparator realising `sort(key=ai_score, reverse=True)`. -/
def byAiDesc (a b : AnalyzedCandidate) : Bool := decide (b.ai_score ≤ a.ai_score)

/-- main.py 655-659: stable sort of the analyzed candidates by ai_score
descending, keeping the first 5. -/
def finalFive (l : List AnalyzedCandidate) : List AnalyzedCandidate :=
  (l.mergeSort byAiDesc).take 5

/-- The value returned by `analyze_reviews_with_gemini` (main.py 86-146):
a parsed JSON payload, a parse-error record, or a call-error record.  The
pipeline stores it without inspecting it, so the payload is modelled by
the response text it was parsed from. -/
inductive GRes
  | parsed (text : Str)
  | parseError (raw : Str)
  | callError (msg : Str)
deriving DecidableEq

/-- The task states appearing in main.py. -/
inductive TState
  | initialized
  | fetching
  | processing
  | analyzing
  | finalizing
  | completed
  | failed
deriving DecidableEq

/-- The payload stored into `tasks[task_id].result`. -/
inductive JResult
  | err (msg : Str)
  | restPayload (restaurant_name : Str) (reviews : List RReview) (analysis : GRes)
  | dishPayload (dish : Str) (location : Str) (restaurants : List AnalyzedCandidate)
deriving DecidableEq

/-- One observable value of a task's registry record. -/
structure TaskRec where
  state : TState
  result : Option JResult
deriving DecidableEq

/-- Position of a state in the single-restaurant job's forward path
(PROCESSING does not occur in this variant). -/
def rRank : TState → Nat
  | .initialized => 0
  | .fetching => 1
  | .analyzing => 2
  | .finalizing => 3
  | .completed => 4
  | .failed => 5
  | .processing => 6

/-- Position of a state in the dish-search job's forward path
(FINALIZING does not occur in this variant). -/
def dRank : TState → Nat
  | .initialized => 0
  | .fetching => 1
  | .processing => 2
  | .analyzing => 3
  | .completed => 4
  | .failed => 5
  | .finalizing => 6

/-- A state from which no further transition happens. -/
def TState.isTerminal : TState → Bool
  | .completed => true
  | .failed => true
  | _ => false

/-- Environment of one run of the single-restaurant job: the outcome of
each external call, in program order.  `expand` is the
`expand_short_url` call, `actorRun` the Apify actor call, `dataset` the
dataset iteration; `urlName` is the (pure, claim-irrelevant) result of
`extract_restaurant_name_from_url`; `gemini` is the
`analyze_reviews_with_gemini` call, a total function because that
function catches every exception internally (main.py 126-146). -/
structure REnv where
  expand : Except Str Unit
  actorRun : Except Str Unit
  dataset : Except Str (List RItem)
  urlName : Str
  gemini : List RReview → Str → GRes

/-- main.py 252-329: the single-restaurant job, as the list of observable
values its task record takes, in order.  The record starts INITIALIZED
(set by the route handler before the job is spawned, main.py 338). -/
def process_restaurant_data (env : REnv) : List TaskRec :=
  let t0 : TaskRec := { state := .initialized, result := none }
  let t1 : TaskRec := { state := .fetching, result := none }
  match env.expand with
  | .error msg => [t0, t1, { state := .failed, result := some (.err msg) }]
  | .ok _ =>
  match env.actorRun with
  | .error msg => [t0, t1, { state := .failed, result := some (.err msg) }]
  | .ok _ =>
  let t2 : TaskRec := { state := .analyzing, result := none }
  match env.dataset with
  | .error msg => [t0, t1, t2, { state := .failed, result := some (.err msg) }]
  | .ok items =>
  let reviews := collectReviewsR items
  let restaurant_name := finalName items env.urlName
  let top_reviews := reviews.take 10
  let t3 : TaskRec := { state := .finalizing, result := none }
  let analysis := env.gemini top_reviews restaurant_name
  [t0, t1, t2, t3,
    { state := .completed,
      result := some (.restPayload restaurant_name top_reviews analysis) }]

/-- The request body of POST /api/find-restaurants. -/
structure DishSearchRequest where
  dish : Str
  location : Str
  radius : Option Int := some 10
  latitude : Option ℚ := none
  longitude : Option ℚ := none

/-- Environment of one run of the dish-search job: the actor call, the
dataset iteration (iterated twice over the same data when the second pass
runs), and the summarizer outcome of each per-candidate analysis unit,
indexed by the unit's position in the shortlist. -/
structure DishEnv where
  actorRun : Except Str Unit
  dataset : Except Str (List PItem)
  summ : Nat → SummOutcome

/-- main.py 486-678: the dish-search job as its task record's observable
history.  The run_input construction of lines 495-517 only shapes the
scraper call, which the environment abstracts. -/
def process_dish_search (req : DishSearchRequest) (env : DishEnv) : List TaskRec :=
  let t0 : TaskRec := { state := .initialized, result := none }
  let t1 : TaskRec := { state := .fetching, result := none }
  match env.actorRun with
  | .error msg => [t0, t1, { state := .failed, result := some (.err msg) }]
  | .ok _ =>
  let t2 : TaskRec := { state := .processing, result := none }
  match env.dataset with
  | .error msg => [t0, t1, t2, { state := .failed, result := some (.err msg) }]
  | .ok items =>
  let cands := mergeSecondPass (items.filterMap buildCandidate) items
  let top_restaurants := rankStep req.dish cands
  let t3 : TaskRec := { state := .analyzing, result := none }
  let finalR := finalFive (ensureScores (analyzeAll req.dish env.summ top_restaurants))
  [t0, t1, t2, t3,
    { state := .completed, result := some (.dishPayload req.dish req.location finalR) }]

/-- The keyword set exactly as §4.2 of the spec words it: the lowercased
dish string itself, its singular/plural counterpart (strip a trailing s
if present, else append one), and, when the dish name contains several
words, its first word alone. -/
def specKeywords (dish : Str) : List Str :=
  let d := lowerS dish
  [d, if d.getLast? = some 's' then d.dropLast else d ++ [ 's' ]]
    ++ (if d.contains ' ' then [d.takeWhile fun c => decide (c ≠ ' ')] else [])

/-- The fixed dish_quality lookup table as the spec lists it. -/
def specQualityTable : List (Str × ℚ) :=
  [(S "excellent", 9), (S "good", 7), (S "average", 5), (S "poor", 3), (S "unknown", 4)]

/-- The message of the first exception (if any) escaping the
single-restaurant job, in program order. -/
def failMsgR (env : REnv) : Option Str :=
  match env.expand with
  | .error m => some m
  | .ok _ =>
    match env.actorRun with
    | .error m => some m
    | .ok _ =>
      match env.dataset with
      | .error m => some m
      | .ok _ => none

/-- The message of the first exception (if any) escaping the dish-search
job, in program order. -/
def failMsgD (env : DishEnv) : Option Str :=
  match env.actorRun with
  | .error m => some m
  | .ok _ =>
    match env.dataset with
    | .error m => some m
    | .ok _ => none

/-- A trace whose states strictly ascend in the given variant order follows
the variant's fixed forward sequence and never revisits a state. -/
def StrictAscending (rk : TState → Nat) (tr : List TaskRec) : Prop :=
  tr.Chain' fun a b => rk a.state < rk b.state

/-- A split-format place record for the place "x" (rating 4, no interleaved
reviews, no text field). -/
def pX : PItem :=
  { title := some (S "x"), street := none, city := none, stateName := none,
    totalScore := some 4, reviewsCount := none, url := none,
    reviews := none, text := none, stars := none }

/-- A split-format review record for the place "x" (title and text present,
5 stars). -/
def rX : PItem :=
  { title := some (S "x"), street := none, city := none, stateName := none,
    totalScore := none, reviewsCount := none, url := none,
    reviews := none, text := some (some (S "great taco")), stars := some 5 }

/-! Lemmas about the word-boundary scan. -/

lemma wordEnd_cons (c : Char) (u : Str) (h : u ≠ []) : wordEnd (c :: u) = wordEnd u := by
  cases u with
  | nil => exact absurd rfl h
  | cons d v => rfl

lemma isEmpty_false_of_ne_nil {kw : Str} (h : kw ≠ []) : kw.isEmpty = false := by
  cases kw with
  | nil => exact absurd rfl h
  | cons a as => rfl

lemma one_le_length_of_ne_nil {kw : Str} (h : kw ≠ []) : 1 ≤ kw.length := by
  cases kw with
  | nil => exact absurd rfl h
  | cons a as => simp

/-- The scan is fuel-indifferent once the fuel exceeds the text length. -/
lemma wwScanGo_congr (kw : Str) :
    ∀ (f : Nat) (t : Str) (prev : Bool), t.length < f →
      wwScanGo kw f t prev = wwScanGo kw (t.length + 1) t prev := by
  intro f
  induction f using Nat.strong_induction_on with
  | _ f ih =>
    match f with
    | 0 => intro t prev h; exact absurd h (by omega)
    | f + 1 =>
      intro t prev h
      cases t with
      | nil => rfl
      | cons c rest =>
        have hr : rest.length < f := by
          simp only [List.length_cons] at h
          omega
        simp only [wwScanGo, List.length_cons]
        by_cases he : kw.isEmpty
        · simp only [he, if_true]
          rw [ih f (Nat.lt_succ_self f) rest (isWordChar c) hr]
        · simp only [he, Bool.false_eq_true, if_false]
          by_cases hm : bMatchHere kw (c :: rest) prev
          · simp only [hm, if_true]
            have hk1 : 1 ≤ kw.length := by
              cases kw with
              | nil => simp at he
              | cons a as => simp
            have hdf : ((c :: rest).drop kw.length).length < f := by
              simp only [List.length_drop, List.length_cons]
              omega
            have hdr : ((c :: rest).drop kw.length).length < rest.length + 1 := by
              simp only [List.length_drop, List.length_cons]
              omega
            rw [ih f (Nat.lt_succ_self f) _ (wordEnd kw) hdf,
              ih (rest.length + 1) (by omega) _ (wordEnd kw) hdr]
          · simp only [hm, Bool.false_eq_true, if_false]
            rw [ih f (Nat.lt_succ_self f) rest (isWordChar c) hr,
              ih (rest.length + 1) (by omega) rest (isWordChar c) (Nat.lt_succ_self _)]

lemma wwScan_nil (kw : Str) (prev : Bool) :
    wwScan kw [] prev = if bMatchHere kw [] prev then 1 else 0 := rfl

lemma wwScan_cons (kw : Str) (c : Char) (rest : Str) (prev : Bool) :
    wwScan kw (c :: rest) prev =
      if kw.isEmpty then
        (if prev != isWordChar c then 1 else 0) + wwScan kw rest (isWordChar c)
      else if bMatchHere kw (c :: rest) prev then
        1 + wwScan kw ((c :: rest).drop kw.length) (wordEnd kw)
      else wwScan kw rest (isWordChar c) := by
  show wwScanGo kw (rest.length + 1 + 1) (c :: rest) prev = _
  simp only [wwScanGo]
  by_cases he : kw.isEmpty
  · simp only [he, if_true]
    rfl
  · simp only [he, if_false]
    by_cases hm : bMatchHere kw (c :: rest) prev
    · simp only [hm, if_true]
      have hk1 : 1 ≤ kw.length := by
        cases kw with
        | nil => simp at he
        | cons a as => simp
      rw [wwScanGo_congr kw (rest.length + 1) _ (wordEnd kw)
        (by simp only [List.length_drop, List.length_cons]; omega)]
      rfl
    · simp only [hm, if_false]
      rfl

/-- When the word-boundary pattern matches at no split of the text, the
scan finds nothing. -/
lemma wwScan_zero (kw : Str) (hkw : kw ≠ []) :
    ∀ (t : Str) (prev : Bool),
      bMatchHere kw t prev = false →
      (∀ u v, t = u ++ v → u ≠ [] → bMatchHere kw v (wordEnd u) = false) →
      wwScan kw t prev = 0 := by
  have he : kw.isEmpty = false := isEmpty_false_of_ne_nil hkw
  intro t
  induction t with
  | nil =>
    intro prev h0 _
    rw [wwScan_nil, h0]
    rfl
  | cons c rest ih =>
    intro prev h0 hsp
    rw [wwScan_cons, he]
    simp only [Bool.false_eq_true, if_false, h0]
    apply ih
    · have := hsp [c] rest rfl (by simp)
      simpa using this
    · intro u v huv hu
      have := hsp (c :: u) v (by rw [huv]; rfl) (by simp)
      rwa [wordEnd_cons c u hu] at this

/-! Lemmas about the ranker. -/

lemma dishKeywords_eq_specKeywords (dish : Str) :
    dishKeywords dish = specKeywords dish := by
  rw [dishKeywords, specKeywords]
  by_cases h : ' ' ∈ lowerS dish <;>
    simp [List.contains, List.elem_eq_mem, h]

lemma foldl_add_sum {α : Type} (f : α → Nat) :
    ∀ (l : List α) (n : Nat), l.foldl (fun acc x => acc + f x) n = n + (l.map f).sum := by
  intro l
  induction l with
  | nil => intro n; simp
  | cons x xs ih =>
    intro n
    simp only [List.foldl_cons, List.map_cons, List.sum_cons, ih]
    omega

/-- keyword_count is the sum, over the spec's keyword set, of whole-word
match counts in the joined lowercased review text. -/
lemma keywordCountOf_eq_sum (dish : Str) (rvs : List Review) :
    keywordCountOf dish rvs
      = ((specKeywords dish).map fun kw => wwScan kw (allReviewText rvs) false).sum := by
  rw [keywordCountOf, dishKeywords_eq_specKeywords, foldl_add_sum]
  simp

lemma byRatingDesc_trans (a b c : Candidate) :
    byRatingDesc a b → byRatingDesc b c → byRatingDesc a c := by
  simp only [byRatingDesc, decide_eq_true_eq]
  exact fun h1 h2 => le_trans h2 h1

lemma byRatingDesc_total (a b : Candidate) : byRatingDesc a b || byRatingDesc b a := by
  simp only [byRatingDesc, Bool.or_eq_true, decide_eq_true_eq]
  exact le_total _ _

lemma byScoreDesc_trans (a b c : Candidate) :
    byScoreDesc a b → byScoreDesc b c → byScoreDesc a c := by
  simp only [byScoreDesc, decide_eq_true_eq]
  exact fun h1 h2 => le_trans h2 h1

lemma byScoreDesc_total (a b : Candidate) : byScoreDesc a b || byScoreDesc b a := by
  simp only [byScoreDesc, Bool.or_eq_true, decide_eq_true_eq]
  exact le_total _ _

lemma byAiDesc_trans (a b c : AnalyzedCandidate) :
    byAiDesc a b → byAiDesc b c → byAiDesc a c := by
  simp only [byAiDesc, decide_eq_true_eq]
  exact fun h1 h2 => le_trans h2 h1

lemma byAiDesc_total (a b : AnalyzedCandidate) : byAiDesc a b || byAiDesc b a := by
  simp only [byAiDesc, Bool.or_eq_true, decide_eq_true_eq]
  exact le_total _ _

/-- Every survivor of the ranking step carries the keyword count of its own
reviews and the combined score computed from its own rating and count. -/
lemma rankStep_mem (dish : Str) (cands : List Candidate) (c : Candidate)
    (h : c ∈ rankStep dish cands) :
    c.keyword_count = keywordCountOf dish c.reviews
    ∧ c.combined_score = c.rating * (1 + (c.keyword_count : ℚ) / 10) := by
  rw [rankStep] at h
  have h1 := List.mem_mergeSort.mp (List.mem_of_mem_take h)
  obtain ⟨r, hr, rfl⟩ := List.mem_map.mp h1
  exact ⟨rfl, rfl⟩

/-- C2: for every candidate in the dish-search pipeline, the ranker computes
combinedScore = rating * (1 + keywordCount / 10), sorts candidates
descending by combinedScore, and truncates so the output length is
min(10, len(input)); a candidate with zero matching keywords keeps
combinedScore equal to its rating. -/
theorem claim_C2 (dish : Str) (cands : List Candidate) :
    (rankStep dish cands).length = min 10 cands.length
    ∧ (rankStep dish cands).Pairwise (fun a b => b.combined_score ≤ a.combined_score)
    ∧ ∀ c ∈ rankStep dish cands,
        c.combined_score = c.rating * (1 + (c.keyword_count : ℚ) / 10)
        ∧ (c.keyword_count = 0 → c.combined_score = c.rating) := by
  refine ⟨?_, ?_, ?_⟩
  · rw [rankStep]
    simp
  · have key : ∀ l : List Candidate,
        ((l.mergeSort byScoreDesc).take 10).Pairwise
          (fun a b => b.combined_score ≤ a.combined_score) := by
      intro l
      have hs := List.sorted_mergeSort byScoreDesc_trans byScoreDesc_total l
      exact (hs.sublist (List.take_sublist _ _)).imp fun h => by
        simpa [byScoreDesc] using h
    rw [rankStep]
    exact key _
  · intro c hc
    obtain ⟨hkc, hsc⟩ := rankStep_mem dish cands c hc
    refine ⟨hsc, fun h0 => ?_⟩
    rw [hsc, h0]
    norm_num

/-- Witness for claim_C2: a concrete three-candidate input (ratings 3, 5, 5;
only the rating-5 candidate B mentions the dish). -/
theorem claim_C2_witness :
    (rankStep (S "taco")
        [{ name := S "A", address := [], rating := 3, reviewsCount := 0, url := [], reviews := [] },
         { name := S "B", address := [], rating := 5, reviewsCount := 0, url := [],
           reviews := [{ text := S "Great taco", stars := 5 }] }]).length
      = min 10 2
    ∧ ∀ c ∈ rankStep (S "taco")
        [{ name := S "A", address := [], rating := 3, reviewsCount := 0, url := [], reviews := [] },
         { name := S "B", address := [], rating := 5, reviewsCount := 0, url := [],
           reviews := [{ text := S "Great taco", stars := 5 }] }],
        c.combined_score = c.rating * (1 + (c.keyword_count : ℚ) / 10) := by
  refine ⟨(claim_C2 (S "taco") _).1, fun c hc => ((claim_C2 (S "taco") _).2.2 c hc).1⟩

/-- C3: for every dish and ranked candidate, keywordCount equals the sum
over the keyword set — the lowercased dish, its singular/plural
counterpart, and (for a multi-word dish) its first word — of whole-word
occurrences in the joined lowercased non-empty review texts; whole-word
means a keyword with no boundary-delimited occurrence contributes
nothing, so review text "tacold" yields count 0 for dish "taco". -/
theorem claim_C3 :
    (∀ (dish : Str) (cands : List Candidate), ∀ c ∈ rankStep dish cands,
      c.keyword_count
        = ((specKeywords dish).map fun kw => wwScan kw (allReviewText c.reviews) false).sum)
    ∧ (∀ (kw text : Str), kw ≠ [] →
        (∀ n ∈ List.range (text.length + 1),
          bMatchHere kw (text.drop n) (wordEnd (text.take n)) = false) →
        wwScan kw text false = 0)
    ∧ wwScan (S "taco") (S "tacold") false = 0
    ∧ keywordCountOf (S "taco") [{ text := S "tacold", stars := 5 }] = 0 := by
  refine ⟨?_, ?_, by decide, by decide⟩
  · intro dish cands c hc
    rw [(rankStep_mem dish cands c hc).1, keywordCountOf_eq_sum]
  · intro kw text hkw hnm
    apply wwScan_zero kw hkw text false
    · have := hnm 0 (by simp)
      simpa [wordEnd] using this
    · intro u v huv _
      have h1 := hnm u.length (by rw [List.mem_range, huv]; simp; omega)
      rw [huv, List.take_left, List.drop_left] at h1
      exact h1

/-- Witness for claim_C3 at concrete inputs: the single scored candidate of
a one-candidate ranking, and a keyword occurring only inside a longer
word. -/
theorem claim_C3_witness :
    ({ name := S "W", address := [], rating := 4, reviewsCount := 1, url := [],
       reviews := [{ text := S "Best taco in town", stars := 5 }],
       keyword_count := 1, combined_score := 22 / 5 } : Candidate).keyword_count
      = ((specKeywords (S "taco")).map fun kw =>
          wwScan kw
            (allReviewText [{ text := S "Best taco in town", stars := 5 }]) false).sum
    ∧ wwScan (S "taco") (S "my tacold story") false = 0 := by
  constructor
  · refine claim_C3.1 (S "taco")
      [{ name := S "W", address := [], rating := 4, reviewsCount := 1, url := [],
         reviews := [{ text := S "Best taco in town", stars := 5 }] }]
      { name := S "W", address := [], rating := 4, reviewsCount := 1, url := [],
        reviews := [{ text := S "Best taco in town", stars := 5 }],
        keyword_count := 1, combined_score := 22 / 5 }
      ?_
    simp only [rankStep, List.mergeSort_singleton, List.map_cons, List.map_nil]
    simp only [List.take, List.mem_singleton]
    have hk : keywordCountOf (S "taco")
        [{ text := S "Best taco in town", stars := 5 }] = 1 := by decide
    rw [hk]
    norm_num
  · exact claim_C3.2.1 (S "taco") (S "my tacold story") (by decide) (by decide)

/-- C4: for a per-candidate summarizer response that parses as JSON, the
derived aiScore equals recommendation_score when that field is present
and nonzero, otherwise the value of dish_quality under the fixed table
(excellent 9, good 7, average 5, poor 3, unknown 4); in either case the
score is halved when serves_dish is false (the code halves whenever
serves_dish is not true, which covers an absent field as well). -/
theorem claim_C4 (r : Candidate) (dish : Str) (a : Analysis) :
    (∀ s : ℚ, a.recommendation_score = some s → s ≠ 0 →
      (analyzeDetailed r dish (.ok (some a))).ai_score
        = s * (if a.serves_dish = some true then 1 else 1 / 2))
    ∧ (∀ q v, (a.recommendation_score = none ∨ a.recommendation_score = some 0) →
        (q, v) ∈ specQualityTable → a.dish_quality = some q →
        (analyzeDetailed r dish (.ok (some a))).ai_score
          = v * (if a.serves_dish = some true then 1 else 1 / 2))
    ∧ (a.serves_dish = some false →
        (analyzeDetailed r dish (.ok (some a))).ai_score
          = (if a.recommendation_score.getD 0 = 0
             then qualityMap (a.dish_quality.getD (S "unknown"))
             else a.recommendation_score.getD 0) * (1 / 2)) := by
  have hserve : a.serves_dish.getD false = true ↔ a.serves_dish = some true := by
    cases h : a.serves_dish with
    | none => simp
    | some b => cases b <;> simp
  refine ⟨?_, ?_, ?_⟩
  · intro s hs hs0
    simp only [analyzeDetailed, hs, Option.getD_some, if_neg hs0]
    by_cases hb : a.serves_dish = some true
    · rw [if_pos (hserve.mpr hb), if_pos hb, mul_one]
    · rw [if_neg fun h => hb (hserve.mp h), if_neg hb]
  · intro q v hrec hmem hq
    have h0 : a.recommendation_score.getD 0 = 0 := by
      rcases hrec with h | h <;> simp [h]
    have hv : qualityMap q = v := by
      simp only [specQualityTable, List.mem_cons, List.mem_singleton,
        List.not_mem_nil, or_false, Prod.mk.injEq] at hmem
      rcases hmem with ⟨rfl, rfl⟩ | ⟨rfl, rfl⟩ | ⟨rfl, rfl⟩ | ⟨rfl, rfl⟩ | ⟨rfl, rfl⟩ <;> decide
    simp only [analyzeDetailed, hq, Option.getD_some, h0, if_pos rfl, hv]
    by_cases hb : a.serves_dish = some true
    · rw [if_pos (hserve.mpr hb), if_pos hb]
      simp
    · rw [if_neg fun h => hb (hserve.mp h), if_neg hb]
      simp
  · intro hsd
    simp only [analyzeDetailed, hsd, Option.getD_some]
    rfl

/-- Witness for claim_C4: a parsed response with recommendation_score 0,
dish_quality good and serves_dish false yields 7 halved, i.e. 3.5. -/
theorem claim_C4_witness :
    (analyzeDetailed
        { name := S "W", address := [], rating := 4, reviewsCount := 0, url := [], reviews := [] }
        (S "taco")
        (.ok (some { serves_dish := some false, dish_quality := some (S "good"),
                     recommendation_score := some 0 }))).ai_score
      = 7 * (if (some false : Option Bool) = some true then 1 else 1 / 2) := by
  exact (claim_C4
    { name := S "W", address := [], rating := 4, reviewsCount := 0, url := [], reviews := [] }
    (S "taco")
    { serves_dish := some false, dish_quality := some (S "good"),
      recommendation_score := some 0 }).2.1 (S "good") 7 (Or.inr rfl) (by decide) rfl

/-- C5: a parse failure yields a degraded record with serves_dish false,
dish_quality unknown, description and recommendation mentioning the dish
name, aiScore 3.0; a summarizer call exception yields the same shape with
aiScore 2.0; the two degraded scores differ, and no summarizer outcome
ever escalates to task-level failure (the job completes whatever the
per-unit outcomes are). -/
theorem claim_C5 (r : Candidate) (dish : Str) (msg : Str) :
    ((analyzeDetailed r dish (.ok none)).analysis.serves_dish = some false
      ∧ (analyzeDetailed r dish (.ok none)).analysis.dish_quality = some (S "unknown")
      ∧ (∃ u w, (analyzeDetailed r dish (.ok none)).analysis.dish_description
          = some (u ++ dish ++ w))
      ∧ (∃ u w, (analyzeDetailed r dish (.ok none)).analysis.recommendation
          = some (u ++ dish ++ w))
      ∧ (analyzeDetailed r dish (.ok none)).ai_score = 3)
    ∧ ((analyzeDetailed r dish (.exn msg)).analysis.serves_dish = some false
      ∧ (analyzeDetailed r dish (.exn msg)).analysis.dish_quality = some (S "unknown")
      ∧ (∃ u w, (analyzeDetailed r dish (.exn msg)).analysis.dish_description
          = some (u ++ dish ++ w))
      ∧ (∃ u w, (analyzeDetailed r dish (.exn msg)).analysis.recommendation
          = some (u ++ dish ++ w))
      ∧ (analyzeDetailed r dish (.exn msg)).ai_score = 2)
    ∧ (analyzeDetailed r dish (.ok none)).ai_score
        ≠ (analyzeDetailed r dish (.exn msg)).ai_score
    ∧ (∀ (req : DishSearchRequest) (items : List PItem) (summ : Nat → SummOutcome),
        (process_dish_search req
            { actorRun := .ok (), dataset := .ok items, summ := summ }).getLast?.map
          TaskRec.state = some .completed) := by
  refine ⟨⟨rfl, rfl, ?_, ?_, rfl⟩, ⟨rfl, rfl, ?_, ?_, rfl⟩, ?_, ?_⟩
  · exact ⟨S "We couldn't determine if this restaurant serves ", S ".", rfl⟩
  · exact ⟨S "This restaurant may serve ", S " but we couldn't analyze the quality.", rfl⟩
  · exact ⟨S "Error analyzing this restaurant for ", S ".", rfl⟩
  · exact ⟨S "This restaurant may serve ", S " but we couldn't analyze the quality.", rfl⟩
  · show (3 : ℚ) ≠ 2
    norm_num
  · intro req items summ
    simp [process_dish_search]

/-- C6: the parallel analyzer produces exactly one AnalyzedCandidate per
shortlist candidate whatever each unit's outcome (the gathered list pairs
position i with shortlist[i] and keeps its name), the defensive score
pass changes nothing, and the full set is sorted descending by aiScore by
a stable sort (any aiScore-sorted sublist survives into the sorted list,
preserving original relative order of ties) and truncated to the first
5. -/
theorem claim_C6 (dish : Str) (summ : Nat → SummOutcome) (sl : List Candidate) :
    (analyzeAll dish summ sl).length = sl.length
    ∧ (∀ i : Nat, (analyzeAll dish summ sl)[i]?
        = (sl[i]?).map fun c => analyzeDetailed c dish (summ i))
    ∧ (∀ (c : Candidate) (d2 : Str) (o : SummOutcome), (analyzeDetailed c d2 o).name = c.name)
    ∧ ensureScores (analyzeAll dish summ sl) = analyzeAll dish summ sl
    ∧ (finalFive (analyzeAll dish summ sl)).length = min 5 sl.length
    ∧ (finalFive (analyzeAll dish summ sl)).Pairwise (fun a b => b.ai_score ≤ a.ai_score)
    ∧ (∀ l', List.Sublist l' (analyzeAll dish summ sl) →
        l'.Pairwise (fun a b => b.ai_score ≤ a.ai_score) →
        List.Sublist l' ((analyzeAll dish summ sl).mergeSort byAiDesc)) := by
  refine ⟨?_, ?_, ?_, ?_, ?_, ?_, ?_⟩
  · simp [analyzeAll]
  · intro i
    simp [analyzeAll, List.enum, List.getElem?_enumFrom, Option.map_map]
    rfl
  · intro c d2 o
    rcases o with m | p
    · rfl
    · rcases p with _ | a <;> rfl
  · simp [ensureScores]
  · simp [finalFive, analyzeAll]
  · have hs := List.sorted_mergeSort byAiDesc_trans byAiDesc_total (analyzeAll dish summ sl)
    exact (hs.sublist (List.take_sublist _ _)).imp fun h => by
      simpa [byAiDesc] using h
  · intro l' hsub hp
    exact List.sublist_mergeSort byAiDesc_trans byAiDesc_total
      (hp.imp fun h => by simpa [byAiDesc] using h) hsub

/-- Witness for claim_C6 on the spec's 3-of-5-failures scenario: a shortlist
of five candidates whose units at positions 0, 2, 4 fail with a call
exception (score 2) and at 1, 3 return unparseable text (score 3); the
gathered list still has 5 entries, and the two tied degraded call-failure
records at positions 0 and 2 keep their relative order through the sort. -/
theorem claim_C6_witness :
    (analyzeAll (S "p")
        (fun i => if i % 2 = 0 then .exn (S "down") else .ok none)
        [{ name := S "A", address := [], rating := 1, reviewsCount := 0, url := [], reviews := [] },
         { name := S "B", address := [], rating := 1, reviewsCount := 0, url := [], reviews := [] },
         { name := S "C", address := [], rating := 1, reviewsCount := 0, url := [], reviews := [] },
         { name := S "D", address := [], rating := 1, reviewsCount := 0, url := [], reviews := [] },
         { name := S "E", address := [], rating := 1, reviewsCount := 0, url := [], reviews := [] }]).length
      = 5
    ∧ List.Sublist
        [analyzeDetailed
            { name := S "A", address := [], rating := 1, reviewsCount := 0, url := [], reviews := [] }
            (S "p") (.exn (S "down")),
         analyzeDetailed
            { name := S "C", address := [], rating := 1, reviewsCount := 0, url := [], reviews := [] }
            (S "p") (.exn (S "down"))]
        ((analyzeAll (S "p")
            (fun i => if i % 2 = 0 then .exn (S "down") else .ok none)
            [{ name := S "A", address := [], rating := 1, reviewsCount := 0, url := [], reviews := [] },
             { name := S "B", address := [], rating := 1, reviewsCount := 0, url := [], reviews := [] },
             { name := S "C", address := [], rating := 1, reviewsCount := 0, url := [], reviews := [] },
             { name := S "D", address := [], rating := 1, reviewsCount := 0, url := [], reviews := [] },
             { name := S "E", address := [], rating := 1, reviewsCount := 0, url := [], reviews := [] }]).mergeSort
          byAiDesc) := by
  constructor
  · exact (claim_C6 (S "p") (fun i => if i % 2 = 0 then .exn (S "down") else .ok none)
      [{ name := S "A", address := [], rating := 1, reviewsCount := 0, url := [], reviews := [] },
       { name := S "B", address := [], rating := 1, reviewsCount := 0, url := [], reviews := [] },
       { name := S "C", address := [], rating := 1, reviewsCount := 0, url := [], reviews := [] },
       { name := S "D", address := [], rating := 1, reviewsCount := 0, url := [], reviews := [] },
       { name := S "E", address := [], rating := 1, reviewsCount := 0, url := [], reviews := [] }]).1
  · exact (claim_C6 (S "p") (fun i => if i % 2 = 0 then .exn (S "down") else .ok none)
      [{ name := S "A", address := [], rating := 1, reviewsCount := 0, url := [], reviews := [] },
       { name := S "B", address := [], rating := 1, reviewsCount := 0, url := [], reviews := [] },
       { name := S "C", address := [], rating := 1, reviewsCount := 0, url := [], reviews := [] },
       { name := S "D", address := [], rating := 1, reviewsCount := 0, url := [], reviews := [] },
       { name := S "E", address := [], rating := 1, reviewsCount := 0, url := [], reviews := [] }]).2.2.2.2.2.2
      _ (by decide) (by decide)

/-- C1: for every run of either job, the task's states strictly ascend in
the variant's forward order (so no state is revisited and the sequence is
the fixed one), the result is set exactly at the terminal entry (None in
every non-terminal state, non-None in COMPLETED or FAILED), and it is set
exactly once over the run. -/
theorem claim_C1 :
    (∀ env : REnv,
      StrictAscending rRank (process_restaurant_data env)
      ∧ (∀ e ∈ process_restaurant_data env,
          e.result.isSome = true ↔ (e.state = .completed ∨ e.state = .failed))
      ∧ (process_restaurant_data env).countP (fun e => e.result.isSome) = 1)
    ∧ (∀ (req : DishSearchRequest) (env : DishEnv),
      StrictAscending dRank (process_dish_search req env)
      ∧ (∀ e ∈ process_dish_search req env,
          e.result.isSome = true ↔ (e.state = .completed ∨ e.state = .failed))
      ∧ (process_dish_search req env).countP (fun e => e.result.isSome) = 1) := by
  constructor
  · intro env
    obtain ⟨ex, ar, ds, un, g⟩ := env
    rcases ex with m1 | u1
    · refine ⟨?_, ?_, ?_⟩
      · simp [process_restaurant_data, StrictAscending, rRank]
      · intro e he
        simp [process_restaurant_data] at he
        rcases he with rfl | rfl | rfl <;> simp
      · simp [process_restaurant_data]
    rcases ar with m2 | u2
    · refine ⟨?_, ?_, ?_⟩
      · simp [process_restaurant_data, StrictAscending, rRank]
      · intro e he
        simp [process_restaurant_data] at he
        rcases he with rfl | rfl | rfl <;> simp
      · simp [process_restaurant_data]
    rcases ds with m3 | items
    · refine ⟨?_, ?_, ?_⟩
      · simp [process_restaurant_data, StrictAscending, rRank]
      · intro e he
        simp [process_restaurant_data] at he
        rcases he with rfl | rfl | rfl | rfl <;> simp
      · simp [process_restaurant_data]
    · refine ⟨?_, ?_, ?_⟩
      · simp [process_restaurant_data, StrictAscending, rRank]
      · intro e he
        simp [process_restaurant_data] at he
        rcases he with rfl | rfl | rfl | rfl | rfl <;> simp
      · simp [process_restaurant_data]
  · intro req env
    obtain ⟨ar, ds, summ⟩ := env
    rcases ar with m1 | u1
    · refine ⟨?_, ?_, ?_⟩
      · simp [process_dish_search, StrictAscending, dRank]
      · intro e he
        simp [process_dish_search] at he
        rcases he with rfl | rfl | rfl <;> simp
      · simp [process_dish_search]
    rcases ds with m2 | items
    · refine ⟨?_, ?_, ?_⟩
      · simp [process_dish_search, StrictAscending, dRank]
      · intro e he
        simp [process_dish_search] at he
        rcases he with rfl | rfl | rfl | rfl <;> simp
      · simp [process_dish_search]
    · refine ⟨?_, ?_, ?_⟩
      · simp [process_dish_search, StrictAscending, dRank]
      · intro e he
        simp [process_dish_search] at he
        rcases he with rfl | rfl | rfl | rfl | rfl <;> simp
      · simp [process_dish_search]

/-- Witness for claim_C1 at concrete runs of both jobs (a failing expand
step and a successful dish search over an empty dataset). -/
theorem claim_C1_witness :
    (StrictAscending rRank (process_restaurant_data
        { expand := .error (S "bad url"), actorRun := .ok (), dataset := .ok [],
          urlName := [], gemini := fun _ _ => .callError [] })
      ∧ ({ state := .failed, result := some (.err (S "bad url")) } : TaskRec).result.isSome
          = true)
    ∧ StrictAscending dRank (process_dish_search
        { dish := S "taco", location := S "here" }
        { actorRun := .ok (), dataset := .ok [], summ := fun _ => .ok none }) := by
  refine ⟨⟨(claim_C1.1 _).1, ?_⟩, (claim_C1.2 { dish := S "taco", location := S "here" } _).1⟩
  exact ((claim_C1.1
    { expand := .error (S "bad url"), actorRun := .ok (), dataset := .ok [],
      urlName := [], gemini := fun _ _ => .callError [] }).2.1
    { state := .failed, result := some (.err (S "bad url")) } (by decide)).mpr (Or.inr rfl)

/-- C7: any exception escaping either orchestration job puts the task in
FAILED as the final entry of its history (the job stops immediately),
with the result set to exactly the error payload carrying the escaping
exception's message — no partial data accompanies it. -/
theorem claim_C7 :
    (∀ (env : REnv) (e : TaskRec), e ∈ process_restaurant_data env → e.state = .failed →
      (process_restaurant_data env).getLast? = some e
      ∧ ∃ m, failMsgR env = some m ∧ e.result = some (.err m))
    ∧ (∀ (req : DishSearchRequest) (env : DishEnv) (e : TaskRec),
        e ∈ process_dish_search req env → e.state = .failed →
        (process_dish_search req env).getLast? = some e
        ∧ ∃ m, failMsgD env = some m ∧ e.result = some (.err m)) := by
  constructor
  · intro env e he hf
    obtain ⟨ex, ar, ds, un, g⟩ := env
    rcases ex with m1 | u1
    · simp [process_restaurant_data] at he
      rcases he with rfl | rfl | rfl
      · simp at hf
      · simp at hf
      · exact ⟨by simp [process_restaurant_data], m1, rfl, rfl⟩
    rcases ar with m2 | u2
    · simp [process_restaurant_data] at he
      rcases he with rfl | rfl | rfl
      · simp at hf
      · simp at hf
      · exact ⟨by simp [process_restaurant_data], m2, rfl, rfl⟩
    rcases ds with m3 | items
    · simp [process_restaurant_data] at he
      rcases he with rfl | rfl | rfl | rfl
      · simp at hf
      · simp at hf
      · simp at hf
      · exact ⟨by simp [process_restaurant_data], m3, rfl, rfl⟩
    · simp [process_restaurant_data] at he
      rcases he with rfl | rfl | rfl | rfl | rfl <;> simp at hf
  · intro req env e he hf
    obtain ⟨ar, ds, summ⟩ := env
    rcases ar with m1 | u1
    · simp [process_dish_search] at he
      rcases he with rfl | rfl | rfl
      · simp at hf
      · simp at hf
      · exact ⟨by simp [process_dish_search], m1, rfl, rfl⟩
    rcases ds with m2 | items
    · simp [process_dish_search] at he
      rcases he with rfl | rfl | rfl | rfl
      · simp at hf
      · simp at hf
      · simp at hf
      · exact ⟨by simp [process_dish_search], m2, rfl, rfl⟩
    · simp [process_dish_search] at he
      rcases he with rfl | rfl | rfl | rfl | rfl <;> simp at hf

/-- Witness for claim_C7 at a concrete failing run of each job. -/
theorem claim_C7_witness :
    ((process_restaurant_data
        { expand := .error (S "boom"), actorRun := .ok (), dataset := .ok [],
          urlName := [], gemini := fun _ _ => .callError [] }).getLast?
      = some { state := .failed, result := some (.err (S "boom")) })
    ∧ ((process_dish_search { dish := S "taco", location := S "here" }
        { actorRun := .error (S "net down"), dataset := .ok [],
          summ := fun _ => .ok none }).getLast?
      = some { state := .failed, result := some (.err (S "net down")) }) := by
  constructor
  · exact (claim_C7.1
      { expand := .error (S "boom"), actorRun := .ok (), dataset := .ok [],
        urlName := [], gemini := fun _ _ => .callError [] }
      { state := .failed, result := some (.err (S "boom")) } (by decide) rfl).1
  · exact (claim_C7.2 { dish := S "taco", location := S "here" }
      { actorRun := .error (S "net down"), dataset := .ok [], summ := fun _ => .ok none }
      { state := .failed, result := some (.err (S "net down")) } (by decide) rfl).1

/-- Counterexample to C8 as stated: a review whose text field is present
but null, ingested by the single-restaurant pipeline, keeps a null text
instead of the empty string (main.py 297 has no null check). -/
theorem claim_C8_cex :
    collectReviewsR
        [{ reviews := some [{ text := some none, stars := some 1 }], name := none }]
      = [{ text := none, stars := 1 }]
    ∧ ({ text := none, stars := 1 } : RReview) ≠ { text := some [], stars := 1 } := by
  decide

/-- C8 amended: in the dish-search pipeline a null or absent review text is
normalized to the empty string; in the single-restaurant pipeline an
absent text field defaults to the empty string but a present null text is
passed through as null; a missing stars field defaults to 0 in both. -/
theorem claim_C8_amended (raw : RawReview) :
    ((raw.text = none ∨ raw.text = some none) → (processReviewD raw).text = [])
    ∧ (∀ s, raw.text = some (some s) → (processReviewD raw).text = s)
    ∧ (raw.text = none → (processReviewR raw).text = some [])
    ∧ (raw.text = some none → (processReviewR raw).text = none)
    ∧ (∀ s, raw.text = some (some s) → (processReviewR raw).text = some s)
    ∧ (raw.stars = none → (processReviewD raw).stars = 0 ∧ (processReviewR raw).stars = 0)
    ∧ (∀ n, raw.stars = some n →
        (processReviewD raw).stars = n ∧ (processReviewR raw).stars = n) := by
  obtain ⟨t, st⟩ := raw
  refine ⟨?_, ?_, ?_, ?_, ?_, ?_, ?_⟩
  · rintro (rfl | rfl) <;> rfl
  · rintro s rfl
    rfl
  · rintro rfl
    rfl
  · rintro rfl
    rfl
  · rintro s rfl
    rfl
  · rintro rfl
    exact ⟨rfl, rfl⟩
  · rintro n rfl
    exact ⟨rfl, rfl⟩

/-- Witness for claim_C8_amended at concrete reviews covering the null,
absent and present cases. -/
theorem claim_C8_witness :
    (processReviewD { text := some none, stars := none }).text = []
    ∧ (processReviewR { text := none, stars := some 4 }).text = some []
    ∧ (processReviewR { text := some none, stars := none }).text = none
    ∧ (processReviewR { text := some none, stars := none }).stars = 0
    ∧ (processReviewD { text := some (some (S "hi")), stars := some 4 }).text = S "hi" := by
  refine ⟨?_, ?_, ?_, ?_, ?_⟩
  · exact (claim_C8_amended { text := some none, stars := none }).1 (Or.inr rfl)
  · exact (claim_C8_amended { text := none, stars := some 4 }).2.2.1 rfl
  · exact (claim_C8_amended { text := some none, stars := none }).2.2.2.1 rfl
  · exact ((claim_C8_amended { text := some none, stars := none }).2.2.2.2.2.1 rfl).2
  · exact (claim_C8_amended { text := some (some (S "hi")), stars := some 4 }).2.1
      (S "hi") rfl

/-- C9 at the failing input: a dataset holding one place record for "x"
(rating 4, no reviews) followed by one review record for "x".  The first
pass ingests the review record as a second candidate also named "x"
(rating 0); the second pass appends the review to that spurious last
duplicate, so the place candidate itself ends with an empty review list
although a review for it exists. -/
theorem claim_C9_bug :
    (mergeSecondPass ([pX, rX].filterMap buildCandidate) [pX, rX]).map
        (fun c => (c.name, c.rating, c.reviews))
      = [(S "x", 4, []), (S "x", 0, [{ text := S "great taco", stars := 5 }])]
    ∧ splitReviews [pX, rX] (S "x") ≠ [] := by
  decide

/-- C10: on a successful single-restaurant run, exactly the first
min(10, N) collected reviews are handed to the summarizer, and the
COMPLETED payload's reviews field holds exactly those same reviews. -/
theorem claim_C10 (items : List RItem) (nm0 : Str) (g : List RReview → Str → GRes) :
    (process_restaurant_data
        { expand := .ok (), actorRun := .ok (), dataset := .ok items,
          urlName := nm0, gemini := g }).getLast?
      = some { state := .completed,
               result := some (.restPayload (finalName items nm0)
                 ((collectReviewsR items).take 10)
                 (g ((collectReviewsR items).take 10) (finalName items nm0))) }
    ∧ ((collectReviewsR items).take 10).length = min 10 (collectReviewsR items).length := by
  constructor
  · simp [process_restaurant_data]
  · simp

end FoodRec
